import Mathlib

/-!
Verification of the orchestration core of the Wordpress-Inference-Engine repository.

This file gives a shallow embedding, in Lean 4, of the parts of the Go source
that the checked claims are about:

* `inference/delegator_service.go` — the `DelegatorService` (routing between the
  primary "proxy" LLM and the secondary "base" LLM with fallback, plus the
  MOA-or-standard generation strategies), together with its helpers
  `estimateTokens` and `shouldFallbackOnError`;
* `inference/context_manager.go` — the `ContextManager` (chunking strategies
  `ChunkByParagraph`, `ChunkBySentence`, `ChunkByTokenCount`, parallel and
  sequential chunk processing, and the rolling summary).

Modelling conventions:

* Go strings are modelled as `String` (delegator side, where only the length is
  inspected) or `List Char` (context-manager side, where the text is cut apart);
  `len` is the number of characters, which agrees with Go's byte length on the
  ASCII fragment exercised here.
* A Go value of type `error` is modelled as `Option GoErr` with `GoErr := String`
  (the message, which is what the code inspects); functions returning
  `(string, error)` with the convention "empty string on failure" are modelled
  with `Except GoErr String`.
* A backend (`llm.LLM`) is modelled by its `Generate` behaviour on prompts, a
  total function `String → Except GoErr String`; the constructor's `nil` checks
  on the two LLMs are dropped because the embedding's backends are total values.
  The `gollm` MOA instance is modelled by its `Generate` behaviour as well, as a
  Go two-valued function `String → String × Option GoErr` so that the
  "non-empty response together with an error" shape expressible in Go is kept.
* The `context.Context` parameters carry no information used by the modelled
  code and are dropped.
* To observe which backends a delegator run touches, the embedded functions
  additionally return a call trace (`List PoolId`, in call order); the Go code
  performs those calls in exactly that order.
* Goroutine scheduling in the parallel chunk processor is modelled by an
  explicit completion order: a list of chunk indices in the order in which the
  goroutines reach their writes.  Any permutation of the indices is a possible
  schedule.
-/

namespace WIE

/-- A Go `error` is inspected only through its message string. -/
abbrev GoErr := String

/-- The two pools a `DelegatorService` can call: the primary ("Proxy") LLM and
the secondary ("Base") LLM. -/
inductive PoolId
  | proxy
  | base
deriving DecidableEq, Repr

/-- A backend LLM, modelled by its `Generate` behaviour. -/
abbrev Backend := String → Except GoErr String

/-- The MOA pipeline, modelled by its `Generate` behaviour; Go returns the
pair `(response, err)`, both of which the delegator code inspects. -/
abbrev MoaFn := String → String × Option GoErr

/-- `DelegatorService` from `inference/delegator_service.go`. -/
structure DelegatorService where
  proxyLLM : Backend
  baseLLM : Backend
  moa : Option MoaFn
  proxyTokenLimit : Nat

/-- `NewDelegatorService` from `inference/delegator_service.go`: stores the two
LLMs and the optional MOA instance and hardcodes `proxyTokenLimit: 8000`. -/
def NewDelegatorService (primaryLLM secondaryLLM : Backend) (moaInstance : Option MoaFn) :
    DelegatorService :=
  { proxyLLM := primaryLLM
    baseLLM := secondaryLLM
    moa := moaInstance
    proxyTokenLimit := 8000 }

/-- `estimateTokens` from `inference/delegator_service.go`:
`return len(text) / 3`. -/
def estimateTokens (text : String) : Nat :=
  text.length / 3

/-- Whether `needle` occurs contiguously inside the list (Go
`strings.Contains`). -/
def isInfixList (needle : List Char) : List Char → Bool
  | [] => needle.isEmpty
  | c :: cs => needle.isPrefixOf (c :: cs) || isInfixList needle cs

/-- Go `strings.Contains(s, sub)`. -/
def containsSubstr (s sub : String) : Bool :=
  isInfixList sub.data s.data

/-- `shouldFallbackOnError` from `inference/delegator_service.go`.  The Go
function takes a non-nil error (the caller guards with `err != nil`), returns
`true` on `context_length_exceeded`, and — per its own comment
"Default: Fallback on most errors for now" — `true` in every other case. -/
def shouldFallbackOnError (errStr : GoErr) : Bool :=
  if containsSubstr errStr "context_length_exceeded" then
    true
  else
    true

/-- `executeGenerationWithFallback` from `inference/delegator_service.go`.

Returns the Go `(string, error)` result as an `Except`, paired with the list of
pools whose `Generate` was called, in call order.  The Go control flow is:
estimate the tokens; if the estimate exceeds `proxyTokenLimit` call the base
LLM (no fallback on failure, `usePrimaryInitially = false`); otherwise call the
proxy LLM and, if it fails and `shouldFallbackOnError` agrees, call the base
LLM once. -/
def executeGenerationWithFallback (d : DelegatorService)
    (promptText operationName : String) : Except GoErr String × List PoolId :=
  let estimatedTokens := estimateTokens promptText
  if estimatedTokens > d.proxyTokenLimit then
    -- initial target is the secondary (base) LLM; usePrimaryInitially = false,
    -- so the fallback branch is skipped and any error surfaces directly
    match d.baseLLM promptText with
    | .ok response => (.ok response, [.base])
    | .error err =>
        (.error (operationName ++ " generation failed using Secondary (Base): " ++ err),
         [.base])
  else
    -- initial target is the primary (proxy) LLM; usePrimaryInitially = true
    match d.proxyLLM promptText with
    | .ok response => (.ok response, [.proxy])
    | .error err =>
        if shouldFallbackOnError err then
          match d.baseLLM promptText with
          | .ok fallbackResponse => (.ok fallbackResponse, [.proxy, .base])
          | .error fallbackErr =>
              (.error (operationName ++ " initial generation failed (Primary (Proxy): " ++
                  err ++ "), fallback failed (Secondary (Base): " ++ fallbackErr ++ ")"),
               [.proxy, .base])
        else
          (.error (operationName ++ " generation failed using Primary (Proxy): " ++ err),
           [.proxy])

/-- `GenerateSimple` from `inference/delegator_service.go`: standard
delegation/fallback only, MOA is not used. -/
def GenerateSimple (d : DelegatorService) (promptText : String) :
    Except GoErr String × List PoolId :=
  executeGenerationWithFallback d promptText "Simple"

/-- The five error kinds of the specification's taxonomy (§7). -/
inductive ErrorKind
  | transient
  | contextOverflow
  | auth
  | permanent
  | cancelled
deriving DecidableEq, Repr

/-- Modelled from the spec: the repository contains no `ErrorClassifier`
component (the delegator's only error inspection is `shouldFallbackOnError`),
so the deterministic classification of §4.1/§4.4 is modelled from the spec's
words: a `context_length_exceeded` message is a context overflow, invalid
credentials are `Auth`, network timeouts and 5xx statuses are `Transient`,
cancellation is `Cancelled`, and everything else is `Permanent`. -/
def classifyError (errStr : GoErr) : ErrorKind :=
  if containsSubstr errStr "context_length_exceeded" then .contextOverflow
  else if containsSubstr errStr "invalid credentials" || containsSubstr errStr "unauthorized" then
    .auth
  else if containsSubstr errStr "timeout" || containsSubstr errStr "status 5" then .transient
  else if containsSubstr errStr "cancelled" || containsSubstr errStr "deadline" then .cancelled
  else .permanent

/-- Follows the spec's words (§4.5 step 2, claim C2), for comparison with the
code's routing decision: route to the proxy pool exactly when the estimate is
at most the proxy context limit minus a reserved output budget. -/
def specInitialRoute (proxyContextLimit reservedOutput estimate : Nat) : PoolId :=
  if estimate ≤ proxyContextLimit - reservedOutput then .proxy else .base

/-- Follows the spec's words (§4.5 step 2): the reserved output budget is
512 tokens or the caller-specified max output, whichever is larger. -/
def specReservedOutput (callerMaxOutput : Option Nat) : Nat :=
  Nat.max 512 (callerMaxOutput.getD 0)

/-- An error message whose spec classification is `Auth`. -/
def authError : GoErr := "unauthorized: invalid credentials"

/-- A prompt of 24000 characters, whose token estimate is exactly 8000. -/
def bigPrompt : String := String.mk (List.replicate 24000 'a')

/-- One step-level call performed by a delegator strategy: either a MOA
`Generate` or the standard `executeGenerationWithFallback` path (with the pools
the standard path touched). -/
inductive StepCall
  | moaCall (prompt : String)
  | stdCall (prompt : String) (pools : List PoolId)
deriving DecidableEq, Repr

/-- The structured-output prompt built by `GenerateStructuredOutput`. -/
def structuredPromptText (content schema : String) : String :=
  "Analyze the following content:\n\n---\n" ++ content ++
    "\n---\n\nPlease extract the relevant information and respond ONLY with a valid JSON object strictly adhering to the following JSON schema:\n```json\n" ++
    schema ++ "\n```"

/-- The reflection prompt built by `GenerateWithReflection` (step 2). -/
def reflectionPromptText (promptText initialResponse : String) : String :=
  "Original prompt: " ++ promptText ++ "\n\nInitial response: " ++ initialResponse ++
    "\n\nPlease review the initial response for accuracy, completeness, and clarity. Provide a revised and improved response based on your review."

/-- `GenerateWithReflection` from `inference/delegator_service.go`.  Each of the
two steps first calls MOA when configured; if the step's response variable is
still the empty string afterwards (MOA absent, MOA failed, or MOA succeeded
with an empty response), the standard fallback path runs and overwrites both
the response and the error; a remaining non-nil error aborts the function. -/
def GenerateWithReflection (d : DelegatorService) (promptText : String) :
    Except GoErr String × List StepCall :=
  -- Step 1: initial response generation (use MOA if available)
  let step1 :=
    match d.moa with
    | some m =>
        let (r, e) := m promptText
        (r, e, [StepCall.moaCall promptText])
    | none => ("", none, [])
  -- if MOA not used or failed, use standard generation
  let step1 :=
    if step1.1 = "" then
      let (res, pools) := executeGenerationWithFallback d promptText "Reflection-Initial"
      match res with
      | .ok s => (s, (none : Option GoErr), step1.2.2 ++ [StepCall.stdCall promptText pools])
      | .error e => ("", some e, step1.2.2 ++ [StepCall.stdCall promptText pools])
    else step1
  match step1.2.1 with
  | some e => (.error ("reflection initial generation failed: " ++ e), step1.2.2)
  | none =>
    -- Step 2: reflection prompt construction
    let reflectionPrompt := reflectionPromptText promptText step1.1
    -- Step 3: reflection response generation (use MOA if available)
    let step3 :=
      match d.moa with
      | some m =>
          let (r, e) := m reflectionPrompt
          (r, e, step1.2.2 ++ [StepCall.moaCall reflectionPrompt])
      | none => ("", none, step1.2.2)
    let step3 :=
      if step3.1 = "" then
        let (res, pools) := executeGenerationWithFallback d reflectionPrompt "Reflection-Reflect"
        match res with
        | .ok s => (s, (none : Option GoErr), step3.2.2 ++ [StepCall.stdCall reflectionPrompt pools])
        | .error e => ("", some e, step3.2.2 ++ [StepCall.stdCall reflectionPrompt pools])
      else step3
    match step3.2.1 with
    | some e => (.error ("reflection refinement generation failed: " ++ e), step3.2.2)
    | none => (.ok step3.1, step3.2.2)

/-- `GenerateStructuredOutput` from `inference/delegator_service.go`: build the
structured prompt, call MOA when configured, and when the response string is
still empty run the standard fallback path; a remaining non-nil error is
wrapped and returned. -/
def GenerateStructuredOutput (d : DelegatorService) (content schema : String) :
    Except GoErr String × List StepCall :=
  let structuredPrompt := structuredPromptText content schema
  let step :=
    match d.moa with
    | some m =>
        let (r, e) := m structuredPrompt
        (r, e, [StepCall.moaCall structuredPrompt])
    | none => ("", none, [])
  let step :=
    if step.1 = "" then
      let (res, pools) := executeGenerationWithFallback d structuredPrompt "StructuredOutput"
      match res with
      | .ok s => (s, (none : Option GoErr), step.2.2 ++ [StepCall.stdCall structuredPrompt pools])
      | .error e => ("", some e, step.2.2 ++ [StepCall.stdCall structuredPrompt pools])
    else step
  match step.2.1 with
  | some e => (.error ("structured output generation failed: " ++ e), step.2.2)
  | none => (.ok step.1, step.2.2)

/-- A proxy backend that always succeeds with "std". -/
def proxyW : Backend := fun _ => .ok "std"

/-- A base backend that always succeeds with "b". -/
def baseW : Backend := fun _ => .ok "b"

/-- A MOA that always "succeeds" with the empty string and no error. -/
def moaEmptyW : MoaFn := fun _ => ("", none)

/-! ### Context manager (`inference/context_manager.go`) -/

/-- Text on the context-manager side is a list of characters. -/
abbrev Text := List Char

/-- `ChunkingStrategy` from `inference/context_manager.go` (the three declared
constants of the Go integer enum; the `default:` branch of `splitIntoChunks`
is only reachable through out-of-range integer values and is not modelled). -/
inductive ChunkingStrategy
  | chunkByParagraph
  | chunkBySentence
  | chunkByTokenCount
deriving DecidableEq, Repr

/-- `ProcessingMode` from `inference/context_manager.go`. -/
inductive ProcessingMode
  | parallelProcessing
  | sequentialProcessing
deriving DecidableEq, Repr

/-- `ContextManager` from `inference/context_manager.go`. -/
structure ContextManager where
  strategy : ChunkingStrategy
  processingMode : ProcessingMode
  maxChunkSize : Nat
  chunkOverlap : Nat
  modelName : String
deriving DecidableEq, Repr

/-- `NewContextManager` from `inference/context_manager.go` with no options
applied: parallel mode, max chunk size 1000, overlap 100, model "gpt-4"
(each functional option overrides one field). -/
def NewContextManager (strategy : ChunkingStrategy) : ContextManager :=
  { strategy := strategy
    processingMode := .parallelProcessing
    maxChunkSize := 1000
    chunkOverlap := 100
    modelName := "gpt-4" }

/-- Go `unicode.IsSpace` restricted to the Latin-1 range (the whitespace the
modelled texts contain): space, tab, newline, vertical tab, form feed,
carriage return, next line, and no-break space. -/
def isSpaceChar (c : Char) : Bool :=
  c == ' ' || c == '\t' || c == '\n' || c == '\x0b' || c == '\x0c' || c == '\r' ||
    c == '\u0085' || c == '\u00A0'

/-- Go `strings.TrimSpace`: drop whitespace from both ends. -/
def trimSpace (l : Text) : Text :=
  ((l.dropWhile isSpaceChar).reverse.dropWhile isSpaceChar).reverse

/-- Modelled from the spec: the two-argument token estimator
`estimateTokens(text, modelName)` called by the context manager is not among
the source files (only its callers are); §4.3 of the spec pins the
conservative default of one token per three characters, which also matches
the repository's one-argument `estimateTokens`. -/
def estimateTokensModel (text : Text) (modelName : String) : Nat :=
  text.length / 3

/-- Go `strings.Split(text, sep)` specialised to the separator `"\n\n"`
used by the paragraph strategies: cut at every non-overlapping occurrence of
two consecutive newlines, scanning left to right. -/
def splitOnDoubleNewline : Text → List Text
  | [] => [[]]
  | '\n' :: '\n' :: cs => [] :: splitOnDoubleNewline cs
  | c :: cs =>
      match splitOnDoubleNewline cs with
      | h :: t => (c :: h) :: t
      | [] => [[c]]

/-- The sentence terminators of the Go regex `[.!?]\s+`. -/
def isPunctChar (c : Char) : Bool :=
  c == '.' || c == '!' || c == '?'

/-- Worker for `sentenceSplit`, scanning left to right one character per step.
`piece` is the current piece in reverse; `pend` holds a terminator that will
start a separator match if the next character is whitespace; `inSep` means the
scanner is inside the whitespace run of a separator match. -/
def sentenceSplitGo : Text → Text → Option Char → Bool → List Text
  | [], piece, pend, _ =>
      [(match pend with | some p => p :: piece | none => piece).reverse]
  | c :: cs, piece, pend, inSep =>
      if inSep then
        if isSpaceChar c then sentenceSplitGo cs piece pend true
        else if isPunctChar c then sentenceSplitGo cs [] (some c) false
        else sentenceSplitGo cs [c] none false
      else
        match pend with
        | some p =>
            if isSpaceChar c then piece.reverse :: sentenceSplitGo cs [] none true
            else if isPunctChar c then sentenceSplitGo cs (p :: piece) (some c) false
            else sentenceSplitGo cs (c :: p :: piece) none false
        | none =>
            if isPunctChar c then sentenceSplitGo cs piece (some c) false
            else sentenceSplitGo cs (c :: piece) none false

/-- Go `regexp.MustCompile([.!?]\s+).Split(text, -1)`: a separator is one
sentence terminator followed by a maximal non-empty whitespace run; the match
(terminator and whitespace) is removed and the text around it returned. -/
def sentenceSplit (text : Text) : List Text :=
  sentenceSplitGo text [] none false

/-- Go `strings.Index(s, sub)`: position of the first occurrence of `sub`,
`none` for Go's `-1`. -/
def stringsIndexAux (sub : Text) : Text → Option Nat
  | [] => if sub.isEmpty then some 0 else none
  | c :: cs =>
      if sub.isPrefixOf (c :: cs) then some 0
      else (stringsIndexAux sub cs).map (· + 1)

/-- The punctuation re-attachment performed on each trimmed sentence by
`splitIntoChunks` (sentence case) and `splitByTokenCount`: look up the first
occurrence of the trimmed sentence in the containing string and, if the
character after it there is a sentence terminator, append that character. -/
def reattachPunctuation (container trimmed : Text) : Text :=
  if trimmed.length > 0 && container.length > trimmed.length then
    match stringsIndexAux trimmed container with
    | some originalIndex =>
        if originalIndex + trimmed.length < container.length then
          match container[originalIndex + trimmed.length]? with
          | some punctuation =>
              if punctuation == '.' || punctuation == '!' || punctuation == '?' then
                trimmed ++ [punctuation]
              else trimmed
          | none => trimmed
        else trimmed
    | none => trimmed
  else trimmed

/-- Loop of `groupSentencesIntoChunks`: greedily pack sentences, flushing the
current chunk when the running token count would exceed `maxChunkSize`; the
space separator is written only when the running token count is non-zero. -/
def groupGo (maxChunkSize : Nat) (modelName : String) :
    List Text → List Text → Text → Nat → List Text
  | [], chunks, currentChunk, _ =>
      if currentChunk.length > 0 then chunks ++ [currentChunk] else chunks
  | sentence :: rest, chunks, currentChunk, currentTokens =>
      let sentenceTokens := estimateTokensModel sentence modelName
      let flushed := currentTokens > 0 && currentTokens + sentenceTokens > maxChunkSize
      let chunks := if flushed then chunks ++ [currentChunk] else chunks
      let currentChunk := if flushed then [] else currentChunk
      let currentTokens := if flushed then 0 else currentTokens
      let currentChunk :=
        if currentTokens > 0 then currentChunk ++ [' '] ++ sentence
        else currentChunk ++ sentence
      groupGo maxChunkSize modelName rest chunks currentChunk (currentTokens + sentenceTokens)

/-- `groupSentencesIntoChunks` from `inference/context_manager.go`. -/
def groupSentencesIntoChunks (cm : ContextManager) (sentences : List Text) : List Text :=
  if sentences.isEmpty then []
  else groupGo cm.maxChunkSize cm.modelName sentences [] [] 0

/-- The inner sentence loop of `splitByTokenCount`, applied to an oversized
paragraph: trim each sentence, skip empty ones, re-attach punctuation looked
up in the trimmed paragraph, and pack greedily as in `groupGo`. -/
def sentencePackGo (maxChunkSize : Nat) (modelName : String) (trimmedParagraph : Text) :
    List Text → List Text → Text → Nat → List Text
  | [], chunks, cur, _ =>
      if cur.length > 0 then chunks ++ [cur] else chunks
  | sentence :: rest, chunks, cur, tok =>
      let sentenceTrimmed := trimSpace sentence
      if sentenceTrimmed.isEmpty then
        sentencePackGo maxChunkSize modelName trimmedParagraph rest chunks cur tok
      else
        let sentenceTrimmed := reattachPunctuation trimmedParagraph sentenceTrimmed
        let sentenceTokens := estimateTokensModel sentenceTrimmed modelName
        let flushed := tok > 0 && tok + sentenceTokens > maxChunkSize
        let chunks := if flushed then chunks ++ [cur] else chunks
        let cur := if flushed then [] else cur
        let tok := if flushed then 0 else tok
        let cur := if tok > 0 then cur ++ [' '] ++ sentenceTrimmed else cur ++ sentenceTrimmed
        sentencePackGo maxChunkSize modelName trimmedParagraph rest chunks cur
          (tok + sentenceTokens)

/-- The paragraph loop of `splitByTokenCount`: pack paragraphs greedily with a
blank-line separator; a paragraph whose own estimate exceeds `maxChunkSize`
flushes the current chunk and is split by sentences instead. -/
def splitByTokenCountGo (cm : ContextManager) :
    List Text → List Text → Text → Nat → List Text
  | [], chunks, cur, _ =>
      if cur.length > 0 then chunks ++ [cur] else chunks
  | paragraph :: rest, chunks, cur, tok =>
      let trimmed := trimSpace paragraph
      if trimmed.isEmpty then splitByTokenCountGo cm rest chunks cur tok
      else
        let paragraphTokens := estimateTokensModel trimmed cm.modelName
        if paragraphTokens > cm.maxChunkSize then
          let chunks := if cur.length > 0 then chunks ++ [cur] else chunks
          let chunks := chunks ++
            sentencePackGo cm.maxChunkSize cm.modelName trimmed (sentenceSplit trimmed) [] [] 0
          splitByTokenCountGo cm rest chunks [] 0
        else if tok + paragraphTokens > cm.maxChunkSize then
          splitByTokenCountGo cm rest (chunks ++ [cur]) trimmed paragraphTokens
        else
          let cur := if tok > 0 then cur ++ '\n' :: '\n' :: trimmed else cur ++ trimmed
          splitByTokenCountGo cm rest chunks cur (tok + paragraphTokens)

/-- `splitByTokenCount` from `inference/context_manager.go`. -/
def splitByTokenCount (cm : ContextManager) (text : Text) : List Text :=
  splitByTokenCountGo cm (splitOnDoubleNewline text) [] [] 0

/-- `splitIntoChunks` from `inference/context_manager.go`. -/
def splitIntoChunks (cm : ContextManager) (text : Text) : List Text :=
  match cm.strategy with
  | .chunkByParagraph =>
      (splitOnDoubleNewline text).filterMap fun chunk =>
        let trimmed := trimSpace chunk
        if trimmed.isEmpty then none else some trimmed
  | .chunkBySentence =>
      let sentences := sentenceSplit text
      let nonEmptySentences := sentences.filterMap fun sentence =>
        let trimmed := trimSpace sentence
        if trimmed.isEmpty then none else some (reattachPunctuation text trimmed)
      groupSentencesIntoChunks cm nonEmptySentences
  | .chunkByTokenCount => splitByTokenCount cm text

/-- The minimal `TextGenerator` interface consumed by the context manager
(`GenerateText`), modelled as a deterministic function. -/
abbrev TextGenerator := Text → Except GoErr Text

/-- The fixed separator `"\n\n---\n\n"` used to join chunk results. -/
def chunkJoinSeparator : Text := "\n\n---\n\n".data

/-- The per-chunk placeholder `"[ERROR PROCESSING CHUNK %d]"` (1-based). -/
def errorPlaceholder (index : Nat) : Text :=
  ("[ERROR PROCESSING CHUNK " ++ toString (index + 1) ++ "]").data

/-- The per-chunk error `"error processing chunk %d: %w"` (1-based). -/
def chunkErrorMessage (index : Nat) (e : GoErr) : GoErr :=
  "error processing chunk " ++ toString (index + 1) ++ ": " ++ e

/-- The per-chunk prompt of `processInParallel`:
`"%s\n\n---\n%s\n---"` over instruction and chunk text. -/
def parallelChunkPrompt (instructionPerChunk chunkText : Text) : Text :=
  instructionPerChunk ++ "\n\n---\n".data ++ chunkText ++ "\n---".data

/-- What the goroutine for a chunk writes into its slot of `resultsArray`:
the generator's result, or the placeholder on error. -/
def chunkOutcome (gen : TextGenerator) (instructionPerChunk : Text) (index : Nat)
    (chunkText : Text) : Text :=
  match gen (parallelChunkPrompt instructionPerChunk chunkText) with
  | .ok result => result
  | .error _ => errorPlaceholder index

/-- One goroutine completion of `processInParallel`: the goroutine for chunk
`index` writes its slot of the results array and, on error, overwrites
`lastError` under the mutex. -/
def parStep (gen : TextGenerator) (instructionPerChunk : Text) (chunks : List Text)
    (st : List Text × Option GoErr) (index : Nat) : List Text × Option GoErr :=
  match chunks[index]? with
  | none => st
  | some chunkText =>
      match gen (parallelChunkPrompt instructionPerChunk chunkText) with
      | .ok result => (st.1.set index result, st.2)
      | .error e =>
          (st.1.set index (errorPlaceholder index), some (chunkErrorMessage index e))

/-- `processInParallel` from `inference/context_manager.go`, with the
goroutine completion order made explicit: `order` lists the chunk indices in
the order their goroutines reach their writes (any permutation of
`0 .. chunks.length - 1` is a possible schedule).  The results array starts
as `chunks.length` empty strings (Go zero values); after all goroutines
finish, the results are joined in index order with the fixed separator and
returned together with the last error written. -/
def processInParallel (gen : TextGenerator) (chunks : List Text)
    (instructionPerChunk : Text) (order : List Nat) : Text × Option GoErr :=
  let final := order.foldl (parStep gen instructionPerChunk chunks)
    (List.replicate chunks.length [], none)
  (List.intercalate chunkJoinSeparator final.1, final.2)

/-- `summarizeForContext` from `inference/context_manager.go`: keep the whole
text when it has at most three sentences; otherwise join the last three
sentences with `". "` and patch the final punctuation to match the
original text's last character. -/
def summarizeForContext (cm : ContextManager) (text : Text) : Text :=
  let sentences := sentenceSplit text
  let numSentences := sentences.length
  let contextSentences := 3
  if numSentences ≤ contextSentences then text
  else
    let summary :=
      List.intercalate ('.' :: ' ' :: []) (sentences.drop (numSentences - contextSentences))
    match text.getLast? with
    | none => summary
    | some lastCharOriginal =>
        if isPunctChar lastCharOriginal then
          match summary.getLast? with
          | some lastCharSummary =>
              if !(isPunctChar lastCharSummary) then summary ++ [lastCharOriginal]
              else summary
          | none => summary
        else
          match summary.getLast? with
          | some lastCharSummary =>
              if isPunctChar lastCharSummary then summary else summary ++ ['.']
          | none => summary

/-- The first-chunk prompt of `processSequentially`:
`"Overall Task: %s\n\nCurrent Section:\n---\n%s\n---"`. -/
def seqFirstPrompt (instructionPerChunk chunkText : Text) : Text :=
  "Overall Task: ".data ++ instructionPerChunk ++
    "\n\nCurrent Section:\n---\n".data ++ chunkText ++ "\n---".data

/-- The later-chunk prompt of `processSequentially`:
`"Overall Task: %s\n\nSummary of previous output:\n%s\n\nCurrent Section:\n---\n%s\n---"`. -/
def seqLaterPrompt (instructionPerChunk summary chunkText : Text) : Text :=
  "Overall Task: ".data ++ instructionPerChunk ++
    "\n\nSummary of previous output:\n".data ++ summary ++
    "\n\nCurrent Section:\n---\n".data ++ chunkText ++ "\n---".data

/-- Loop of `processSequentially`: process chunks in order, carrying the
rolling summary of the previous output; on the first generator error, append
the placeholder, join the results collected so far, and return that text with
the error.  The third component records the prompts sent to the generator, in
order. -/
def processSequentiallyGo (cm : ContextManager) (gen : TextGenerator)
    (instructionPerChunk : Text) :
    List Text → Nat → List Text → Text → List Text → Text × Option GoErr × List Text
  | [], _, results, _, prompts =>
      (List.intercalate chunkJoinSeparator results, none, prompts)
  | chunk :: rest, i, results, previousOutputSummary, prompts =>
      let chunkPrompt :=
        if i = 0 then seqFirstPrompt instructionPerChunk chunk
        else seqLaterPrompt instructionPerChunk previousOutputSummary chunk
      match gen chunkPrompt with
      | .error e =>
          (List.intercalate chunkJoinSeparator (results ++ [errorPlaceholder i]),
           some (chunkErrorMessage i e), prompts ++ [chunkPrompt])
      | .ok result =>
          processSequentiallyGo cm gen instructionPerChunk rest (i + 1)
            (results ++ [result]) (summarizeForContext cm result)
            (prompts ++ [chunkPrompt])

/-- `processSequentially` from `inference/context_manager.go` (with the list
of issued prompts returned for observation). -/
def processSequentially (cm : ContextManager) (gen : TextGenerator)
    (chunks : List Text) (instructionPerChunk : Text) :
    Text × Option GoErr × List Text :=
  processSequentiallyGo cm gen instructionPerChunk chunks 0 [] [] []

/-- `ProcessLargePrompt` from `inference/context_manager.go`: split, fail with
an error on zero chunks, then process sequentially or in parallel according to
the configured mode (`order` is the goroutine completion order of the parallel
case, unused by the sequential case). -/
def ProcessLargePrompt (cm : ContextManager) (gen : TextGenerator)
    (largePrompt instructionPerChunk : Text) (order : List Nat) : Text × Option GoErr :=
  let chunks := splitIntoChunks cm largePrompt
  if chunks.isEmpty then ([], some "prompt resulted in zero chunks")
  else if cm.processingMode = .sequentialProcessing then
    let r := processSequentially cm gen chunks instructionPerChunk
    (r.1, r.2.1)
  else
    processInParallel gen chunks instructionPerChunk order

/-- The characters of a text that are not whitespace, in order: the residue
compared by "reproduces the original text up to discarded whitespace". -/
def filterNonSpace (l : Text) : Text := l.filter (fun c => !(isSpaceChar c))

/-- A chunk produced by the annotated token-count splitter, recording what
`splitByTokenCount`'s loop knew when the chunk was flushed: the chunk text,
the running token counter `currentTokens` at flush time (the sum of the
estimates of the packed components), and the largest single component
estimate. -/
structure PackedChunk where
  text : Text
  packedTokens : Nat
  maxComponentTokens : Nat
deriving DecidableEq, Repr

/-- `sentencePackGo` instrumented with the running token counter and the
largest component estimate; identical recursion, extra bookkeeping only. -/
def sentencePackGoA (maxChunkSize : Nat) (modelName : String) (trimmedParagraph : Text) :
    List Text → List PackedChunk → Text → Nat → Nat → List PackedChunk
  | [], chunks, cur, tok, cmax =>
      if cur.length > 0 then chunks ++ [⟨cur, tok, cmax⟩] else chunks
  | sentence :: rest, chunks, cur, tok, cmax =>
      let sentenceTrimmed := trimSpace sentence
      if sentenceTrimmed.isEmpty then
        sentencePackGoA maxChunkSize modelName trimmedParagraph rest chunks cur tok cmax
      else
        let sentenceTrimmed := reattachPunctuation trimmedParagraph sentenceTrimmed
        let sentenceTokens := estimateTokensModel sentenceTrimmed modelName
        let flushed := tok > 0 && tok + sentenceTokens > maxChunkSize
        let chunks := if flushed then chunks ++ [⟨cur, tok, cmax⟩] else chunks
        let cur := if flushed then [] else cur
        let tok := if flushed then 0 else tok
        let cmax := if flushed then 0 else cmax
        let cur := if tok > 0 then cur ++ [' '] ++ sentenceTrimmed else cur ++ sentenceTrimmed
        sentencePackGoA maxChunkSize modelName trimmedParagraph rest chunks cur
          (tok + sentenceTokens) (Nat.max cmax sentenceTokens)

/-- `splitByTokenCountGo` instrumented like `sentencePackGoA`. -/
def splitByTokenCountGoA (cm : ContextManager) :
    List Text → List PackedChunk → Text → Nat → Nat → List PackedChunk
  | [], chunks, cur, tok, cmax =>
      if cur.length > 0 then chunks ++ [⟨cur, tok, cmax⟩] else chunks
  | paragraph :: rest, chunks, cur, tok, cmax =>
      let trimmed := trimSpace paragraph
      if trimmed.isEmpty then splitByTokenCountGoA cm rest chunks cur tok cmax
      else
        let paragraphTokens := estimateTokensModel trimmed cm.modelName
        if paragraphTokens > cm.maxChunkSize then
          let chunks := if cur.length > 0 then chunks ++ [⟨cur, tok, cmax⟩] else chunks
          let chunks := chunks ++
            sentencePackGoA cm.maxChunkSize cm.modelName trimmed (sentenceSplit trimmed) [] [] 0 0
          splitByTokenCountGoA cm rest chunks [] 0 0
        else if tok + paragraphTokens > cm.maxChunkSize then
          splitByTokenCountGoA cm rest (chunks ++ [⟨cur, tok, cmax⟩]) trimmed
            paragraphTokens paragraphTokens
        else
          let cur := if tok > 0 then cur ++ '\n' :: '\n' :: trimmed else cur ++ trimmed
          splitByTokenCountGoA cm rest chunks cur (tok + paragraphTokens)
            (Nat.max cmax paragraphTokens)

/-- `splitByTokenCount` with each chunk annotated by its tracked token count
and largest component estimate. -/
def splitByTokenCountAnnotated (cm : ContextManager) (text : Text) : List PackedChunk :=
  splitByTokenCountGoA cm (splitOnDoubleNewline text) [] [] 0 0

/-- A token-count context manager with `maxChunkSize` 5. -/
def cmToken5 : ContextManager :=
  { strategy := .chunkByTokenCount, processingMode := .parallelProcessing,
    maxChunkSize := 5, chunkOverlap := 0, modelName := "m" }

/-- Thirty letters with no sentence or paragraph boundary: a single
unsplittable component of estimate 10. -/
def text30 : Text := List.replicate 30 'a'

/-- Generator failing exactly on prompts that mention the letter B. -/
def genW : TextGenerator := fun p => if p.elem 'B' then .error "boom" else .ok "okA".data

/-- The outcome recorded at a chunk index once its goroutine has completed:
the generator's result or the error placeholder (out-of-range indices keep the
initial empty-string slot value). -/
def outcomeAt (gen : TextGenerator) (instructionPerChunk : Text) (chunks : List Text)
    (index : Nat) : Text :=
  match chunks[index]? with
  | some chunkText => chunkOutcome gen instructionPerChunk index chunkText
  | none => []

/-- A generator that always succeeds. -/
def genOkW : TextGenerator := fun _ => .ok "R".data

/-- A generator that always fails. -/
def genBadW : TextGenerator := fun _ => .error "boom"

/-- A proxy backend that always fails with "boomp". -/
def proxyErrW : Backend := fun _ => .error "boomp"

/-- A base backend that always fails with "boomb". -/
def baseErrW : Backend := fun _ => .error "boomb"

-- ===================== Theorems =====================

theorem splitOnDoubleNewline_ne_nil (l : Text) : splitOnDoubleNewline l ≠ [] := by
  induction l using splitOnDoubleNewline.induct <;>
    · simp only [splitOnDoubleNewline]
      try split
      all_goals simp_all

theorem filterNonSpace_dropWhile (l : Text) :
    filterNonSpace (l.dropWhile isSpaceChar) = filterNonSpace l := by
  induction l with
  | nil => rfl
  | cons c cs ih =>
      by_cases h : isSpaceChar c
      · simpa [List.dropWhile_cons, filterNonSpace, List.filter_cons, h] using ih
      · simp [List.dropWhile_cons, filterNonSpace, List.filter_cons, h]

theorem filterNonSpace_reverse (l : Text) :
    filterNonSpace l.reverse = (filterNonSpace l).reverse := by
  simp [filterNonSpace, List.filter_reverse]

theorem filterNonSpace_trimSpace (l : Text) :
    filterNonSpace (trimSpace l) = filterNonSpace l := by
  rw [trimSpace, filterNonSpace_reverse, filterNonSpace_dropWhile, filterNonSpace_reverse,
    List.reverse_reverse, filterNonSpace_dropWhile]

theorem filterNonSpace_eq_nil_of_trim (l : Text) (h : trimSpace l = []) :
    filterNonSpace l = [] := by
  rw [← filterNonSpace_trimSpace, h]; rfl

theorem filterNonSpace_append (a b : Text) :
    filterNonSpace (a ++ b) = filterNonSpace a ++ filterNonSpace b := by
  simp [filterNonSpace, List.filter_append]

theorem filterNonSpace_flatten_splitOnDoubleNewline (l : Text) :
    filterNonSpace (splitOnDoubleNewline l).flatten = filterNonSpace l := by
  induction l using splitOnDoubleNewline.induct with
  | case1 => rfl
  | case2 cs ih =>
      simp only [splitOnDoubleNewline, List.flatten_cons, List.nil_append]
      rw [ih]
      simp [filterNonSpace, List.filter_cons, isSpaceChar]
  | case3 c cs hne h t hs ih =>
      rw [splitOnDoubleNewline.eq_3 c cs hne, hs]
      rw [hs] at ih
      simp only [List.flatten_cons] at ih ⊢
      by_cases hc : isSpaceChar c <;>
        · simp [filterNonSpace, List.filter_cons, List.filter_append, hc] at ih ⊢
          exact ih
  | case4 c cs hne hs ih =>
      exact absurd hs (splitOnDoubleNewline_ne_nil cs)

theorem filterNonSpace_flatten_filterMap_trim (paras : List Text) :
    filterNonSpace (List.flatten (paras.filterMap fun chunk =>
      let trimmed := trimSpace chunk
      if trimmed.isEmpty then none else some trimmed)) =
    filterNonSpace paras.flatten := by
  induction paras with
  | nil => rfl
  | cons p ps ih =>
      by_cases hp : (trimSpace p).isEmpty
      · have hz : filterNonSpace p = [] :=
          filterNonSpace_eq_nil_of_trim p (by simpa [List.isEmpty_iff] using hp)
        simp only [List.filterMap_cons, hp, ite_true, List.flatten_cons,
          filterNonSpace_append, hz, List.nil_append, ih]
      · simp only [List.filterMap_cons, hp, ite_false, Bool.false_eq_true,
          List.flatten_cons, filterNonSpace_append, filterNonSpace_trimSpace, ih]

/-- C6 (amended): with the ByParagraph strategy, splitting and concatenating
the chunk texts in order reproduces the original text up to the whitespace
discarded at paragraph boundaries: the non-whitespace residues coincide.  For
the BySentence strategy the property fails (see the counterexample): the
terminator re-attached to a sentence is looked up at the sentence's first
occurrence in the text and can differ from the original one. -/
theorem c6_paragraph_concat_mod_whitespace (mode : ProcessingMode)
    (maxSz overlap : Nat) (modelName : String) (text : Text) :
    filterNonSpace (splitIntoChunks
      { strategy := .chunkByParagraph, processingMode := mode, maxChunkSize := maxSz,
        chunkOverlap := overlap, modelName := modelName } text).flatten =
    filterNonSpace text := by
  show filterNonSpace (List.flatten ((splitOnDoubleNewline text).filterMap _)) = _
  rw [filterNonSpace_flatten_filterMap_trim, filterNonSpace_flatten_splitOnDoubleNewline]

/-- C6 counterexample: with the sentence strategy, splitting and
concatenating does not reproduce the original modulo whitespace: for
"a. a! " the re-attached punctuation is looked up at the first occurrence of
the trimmed sentence, so the chunk text becomes "a.a." while the original's
non-whitespace residue is "a.a!". -/
theorem c6_counterexample :
    filterNonSpace (splitIntoChunks (NewContextManager .chunkBySentence) "a. a! ".data).flatten ≠
      filterNonSpace "a. a! ".data := by
  decide

theorem estimateTokens_bigPrompt : estimateTokens bigPrompt = 8000 := by
  rw [estimateTokens, bigPrompt, String.length_mk, List.length_replicate]

set_option maxRecDepth 8192 in
/-- C1 counterexample: an error classified `Auth` does trigger a fallback call
to the base pool.  With the proxy failing with an authentication error on a
short prompt, the delegator calls the proxy and then the base pool. -/
theorem c1_counterexample :
    classifyError authError = ErrorKind.auth ∧
    (executeGenerationWithFallback
        (NewDelegatorService (fun _ => .error authError) (fun _ => .ok "recovered") none)
        "hello" "Simple").2 = [PoolId.proxy, PoolId.base] := by
  decide

/-- C1 (amended): for every generation request, the delegator makes a fallback
call to the base pool if and only if the initial pool was the proxy pool
(estimate at most the 8000-token limit) and the first attempt returned an
error of any kind — `shouldFallbackOnError` accepts every non-nil error, so
`Auth` errors trigger fallback like all others. -/
theorem c1_fallback_iff_proxy_error (proxy base : Backend) (moa : Option MoaFn)
    (promptText operationName : String) :
    (executeGenerationWithFallback (NewDelegatorService proxy base moa)
        promptText operationName).2 = [PoolId.proxy, PoolId.base] ↔
      (estimateTokens promptText ≤ 8000 ∧ ∃ e, proxy promptText = .error e) := by
  by_cases hest : estimateTokens promptText > 8000
  · cases hb : base promptText <;>
      simp [executeGenerationWithFallback, NewDelegatorService, hest, hb]
  · cases hp : proxy promptText with
    | ok r =>
        simp [executeGenerationWithFallback, NewDelegatorService, hest, hp]
    | error e =>
        cases hb : base promptText <;>
          simp [executeGenerationWithFallback, NewDelegatorService, shouldFallbackOnError,
            hest, hp, hb] <;>
          omega

/-- C2 counterexample: the code's routing disagrees with the spec's formula.
A 24000-character prompt has estimate 8000; the code routes it to the proxy
pool (boundary `estimate > 8000` not taken), while the spec's rule with the
proxy context limit 8000 and the default reservation 512 routes it to base. -/
theorem c2_counterexample :
    (executeGenerationWithFallback
        (NewDelegatorService (fun _ => .ok "hi") (fun _ => .ok "yo") none)
        bigPrompt "Simple").2 = [PoolId.proxy] ∧
    specInitialRoute 8000 (specReservedOutput none) (estimateTokens bigPrompt) = PoolId.base := by
  constructor
  · simp [executeGenerationWithFallback, NewDelegatorService, estimateTokens_bigPrompt]
  · simp [specInitialRoute, specReservedOutput, estimateTokens_bigPrompt]

/-- C2 (amended): the delegator's initial routing chooses the proxy pool
exactly when the estimated token count is at most the fixed
`proxyTokenLimit` of 8000 installed by `NewDelegatorService`, with the
boundary inclusive; no reserved output budget is subtracted. -/
theorem c2_routing_fixed_limit (proxy base : Backend) (moa : Option MoaFn)
    (promptText operationName : String) :
    (executeGenerationWithFallback (NewDelegatorService proxy base moa)
        promptText operationName).2.head? = some PoolId.proxy ↔
      estimateTokens promptText ≤ 8000 := by
  by_cases hest : estimateTokens promptText > 8000
  · cases hb : base promptText <;>
      simp [executeGenerationWithFallback, NewDelegatorService, hest, hb]
  · cases hp : proxy promptText with
    | ok r =>
        simp [executeGenerationWithFallback, NewDelegatorService, hest, hp]
        omega
    | error e =>
        cases hb : base promptText <;>
          simp [executeGenerationWithFallback, NewDelegatorService, shouldFallbackOnError,
            hest, hp, hb] <;>
          omega

/-- C5: a single generation request performs at most two backend `Generate`
calls, never calls the same pool twice, and a request initially routed to the
base pool never makes a fallback call: the call trace is `[proxy]`, `[base]`,
or `[proxy, base]`. -/
theorem c5_call_trace_shapes (proxy base : Backend) (moa : Option MoaFn)
    (promptText operationName : String) :
    (executeGenerationWithFallback (NewDelegatorService proxy base moa)
        promptText operationName).2 = [PoolId.proxy] ∨
    (executeGenerationWithFallback (NewDelegatorService proxy base moa)
        promptText operationName).2 = [PoolId.base] ∨
    (executeGenerationWithFallback (NewDelegatorService proxy base moa)
        promptText operationName).2 = [PoolId.proxy, PoolId.base] := by
  by_cases hest : estimateTokens promptText > 8000
  · cases hb : base promptText <;>
      simp [executeGenerationWithFallback, NewDelegatorService, hest, hb]
  · cases hp : proxy promptText with
    | ok r =>
        simp [executeGenerationWithFallback, NewDelegatorService, hest, hp]
    | error e =>
        cases hb : base promptText <;>
          simp [executeGenerationWithFallback, NewDelegatorService, shouldFallbackOnError,
            hest, hp, hb]

/-- C7 counterexample: the empty prompt is not rejected.  With both backends
succeeding, `GenerateSimple` on the empty prompt performs one proxy backend
call and returns the backend's text, rather than failing with a `Permanent`
error without a backend call. -/
theorem c7_counterexample :
    GenerateSimple (NewDelegatorService (fun _ => .ok "hi") (fun _ => .ok "yo") none) "" =
      (.ok "hi", [PoolId.proxy]) := by
  rfl

/-- C7 (amended): the empty prompt is not special-cased: its estimate is 0, so
it is routed to the proxy pool and a backend generate call is made (the trace
starts with the proxy pool). -/
theorem c7_empty_prompt_calls_proxy (proxy base : Backend) (moa : Option MoaFn) :
    (GenerateSimple (NewDelegatorService proxy base moa) "").2.head? = some PoolId.proxy := by
  cases hp : proxy "" with
  | ok r =>
      simp [GenerateSimple, executeGenerationWithFallback, NewDelegatorService,
        estimateTokens, hp]
  | error e =>
      cases hb : base "" <;>
        simp [GenerateSimple, executeGenerationWithFallback, NewDelegatorService,
          estimateTokens, shouldFallbackOnError, hp, hb]

/-- One step-level call performed by a delegator strategy: either a MOA
`Generate` or the standard `executeGenerationWithFallback` path (with the pools
the standard path touched). -/
theorem newDelegator_moa (p b : Backend) (mo : Option MoaFn) :
    (NewDelegatorService p b mo).moa = mo := rfl

/-- C10: in `GenerateStructuredOutput` and `GenerateWithReflection`, whenever
the MOA call succeeds but returns the empty string, the standard proxy/base
routing path runs for that same step — the guard tests for an empty response
string, not for the presence of an error — and the step uses that path's
result: `GenerateStructuredOutput` returns the standard path's result (its
error wrapped); in `GenerateWithReflection`, when the step-1 standard path
fails its wrapped error is the function's result, when it succeeds with `r0`
that exact value becomes the adopted initial response embedded in the
reflection prompt of step 3, and when step 3's MOA also succeeds empty the
function's result is step 3's standard-path result (its error wrapped). -/
theorem c10_empty_moa_success_runs_standard_path (proxy base : Backend) (m : MoaFn)
    (promptText content schema : String) :
    (m (structuredPromptText content schema) = ("", none) →
      GenerateStructuredOutput (NewDelegatorService proxy base (some m)) content schema =
        ((executeGenerationWithFallback (NewDelegatorService proxy base (some m))
            (structuredPromptText content schema) "StructuredOutput").1.mapError
              (fun e => "structured output generation failed: " ++ e),
         [StepCall.moaCall (structuredPromptText content schema),
          StepCall.stdCall (structuredPromptText content schema)
            (executeGenerationWithFallback (NewDelegatorService proxy base (some m))
              (structuredPromptText content schema) "StructuredOutput").2])) ∧
    (m promptText = ("", none) →
      ∀ e0, (executeGenerationWithFallback (NewDelegatorService proxy base (some m))
          promptText "Reflection-Initial").1 = .error e0 →
        GenerateWithReflection (NewDelegatorService proxy base (some m)) promptText =
          (.error ("reflection initial generation failed: " ++ e0),
           [StepCall.moaCall promptText,
            StepCall.stdCall promptText
              (executeGenerationWithFallback (NewDelegatorService proxy base (some m))
                promptText "Reflection-Initial").2])) ∧
    (m promptText = ("", none) →
      ∀ r0, (executeGenerationWithFallback (NewDelegatorService proxy base (some m))
          promptText "Reflection-Initial").1 = .ok r0 →
        ∃ rest, (GenerateWithReflection (NewDelegatorService proxy base (some m))
            promptText).2 =
          StepCall.moaCall promptText ::
          StepCall.stdCall promptText
            (executeGenerationWithFallback (NewDelegatorService proxy base (some m))
              promptText "Reflection-Initial").2 ::
          StepCall.moaCall (reflectionPromptText promptText r0) :: rest) ∧
    (m promptText = ("", none) →
      ∀ r0, (executeGenerationWithFallback (NewDelegatorService proxy base (some m))
          promptText "Reflection-Initial").1 = .ok r0 →
        m (reflectionPromptText promptText r0) = ("", none) →
        GenerateWithReflection (NewDelegatorService proxy base (some m)) promptText =
          ((executeGenerationWithFallback (NewDelegatorService proxy base (some m))
              (reflectionPromptText promptText r0) "Reflection-Reflect").1.mapError
                (fun e => "reflection refinement generation failed: " ++ e),
           [StepCall.moaCall promptText,
            StepCall.stdCall promptText
              (executeGenerationWithFallback (NewDelegatorService proxy base (some m))
                promptText "Reflection-Initial").2,
            StepCall.moaCall (reflectionPromptText promptText r0),
            StepCall.stdCall (reflectionPromptText promptText r0)
              (executeGenerationWithFallback (NewDelegatorService proxy base (some m))
                (reflectionPromptText promptText r0) "Reflection-Reflect").2])) := by
  refine ⟨?_, ?_, ?_, ?_⟩
  · intro hm
    rcases hE : executeGenerationWithFallback (NewDelegatorService proxy base (some m))
        (structuredPromptText content schema) "StructuredOutput" with ⟨res, pools⟩
    cases res <;>
      simp [GenerateStructuredOutput, newDelegator_moa, hm, hE, Except.mapError]
  · intro hm e0 h0
    rcases hE : executeGenerationWithFallback (NewDelegatorService proxy base (some m))
        promptText "Reflection-Initial" with ⟨res, pools⟩
    rw [hE] at h0
    cases res with
    | error e =>
        cases h0
        simp [GenerateWithReflection, newDelegator_moa, hm, hE]
    | ok r => cases h0
  · intro hm r0 h0
    rcases hE : executeGenerationWithFallback (NewDelegatorService proxy base (some m))
        promptText "Reflection-Initial" with ⟨res, pools⟩
    rw [hE] at h0
    cases res with
    | error e => cases h0
    | ok s =>
        cases h0
        rcases hm2 : m (reflectionPromptText promptText r0) with ⟨r2, e2⟩
        by_cases hr2 : r2 = ""
        · rcases hE2 : executeGenerationWithFallback (NewDelegatorService proxy base (some m))
              (reflectionPromptText promptText r0) "Reflection-Reflect" with ⟨res2, pools2⟩
          cases res2 <;>
            · refine ⟨[StepCall.stdCall (reflectionPromptText promptText r0) pools2], ?_⟩
              simp [GenerateWithReflection, newDelegator_moa, hm, hE, hm2, hr2, hE2]
        · cases e2 <;>
            · refine ⟨[], ?_⟩
              simp [GenerateWithReflection, newDelegator_moa, hm, hE, hm2, hr2]
  · intro hm r0 h0 hm2
    rcases hE : executeGenerationWithFallback (NewDelegatorService proxy base (some m))
        promptText "Reflection-Initial" with ⟨res, pools⟩
    rw [hE] at h0
    cases res with
    | error e => cases h0
    | ok s =>
        cases h0
        rcases hE2 : executeGenerationWithFallback (NewDelegatorService proxy base (some m))
            (reflectionPromptText promptText r0) "Reflection-Reflect" with ⟨res2, pools2⟩
        cases res2 <;>
          simp [GenerateWithReflection, newDelegator_moa, hm, hE, hm2, hE2, Except.mapError]

/-- C10 witness: the four parts of the theorem applied at concrete backends —
a MOA returning `("", nil)` everywhere, succeeding proxy/base backends for the
happy paths, and failing proxy/base backends for the step-1 error path. -/
theorem c10_witness :
    (GenerateStructuredOutput (NewDelegatorService proxyW baseW (some moaEmptyW)) "c" "s" =
      ((executeGenerationWithFallback (NewDelegatorService proxyW baseW (some moaEmptyW))
          (structuredPromptText "c" "s") "StructuredOutput").1.mapError
            (fun e => "structured output generation failed: " ++ e),
       [StepCall.moaCall (structuredPromptText "c" "s"),
        StepCall.stdCall (structuredPromptText "c" "s")
          (executeGenerationWithFallback (NewDelegatorService proxyW baseW (some moaEmptyW))
            (structuredPromptText "c" "s") "StructuredOutput").2])) ∧
    (GenerateWithReflection (NewDelegatorService proxyErrW baseErrW (some moaEmptyW)) "p" =
      (.error ("reflection initial generation failed: " ++
        "Reflection-Initial initial generation failed (Primary (Proxy): boomp), fallback failed (Secondary (Base): boomb)"),
       [StepCall.moaCall "p",
        StepCall.stdCall "p"
          (executeGenerationWithFallback
            (NewDelegatorService proxyErrW baseErrW (some moaEmptyW))
            "p" "Reflection-Initial").2])) ∧
    (∃ rest, (GenerateWithReflection (NewDelegatorService proxyW baseW (some moaEmptyW))
        "p").2 =
      StepCall.moaCall "p" ::
      StepCall.stdCall "p"
        (executeGenerationWithFallback (NewDelegatorService proxyW baseW (some moaEmptyW))
          "p" "Reflection-Initial").2 ::
      StepCall.moaCall (reflectionPromptText "p" "std") :: rest) ∧
    (GenerateWithReflection (NewDelegatorService proxyW baseW (some moaEmptyW)) "p" =
      ((executeGenerationWithFallback (NewDelegatorService proxyW baseW (some moaEmptyW))
          (reflectionPromptText "p" "std") "Reflection-Reflect").1.mapError
            (fun e => "reflection refinement generation failed: " ++ e),
       [StepCall.moaCall "p",
        StepCall.stdCall "p"
          (executeGenerationWithFallback (NewDelegatorService proxyW baseW (some moaEmptyW))
            "p" "Reflection-Initial").2,
        StepCall.moaCall (reflectionPromptText "p" "std"),
        StepCall.stdCall (reflectionPromptText "p" "std")
          (executeGenerationWithFallback (NewDelegatorService proxyW baseW (some moaEmptyW))
            (reflectionPromptText "p" "std") "Reflection-Reflect").2])) :=
  ⟨(c10_empty_moa_success_runs_standard_path proxyW baseW moaEmptyW "p" "c" "s").1 rfl,
   (c10_empty_moa_success_runs_standard_path proxyErrW baseErrW moaEmptyW "p" "c" "s").2.1 rfl _ rfl,
   (c10_empty_moa_success_runs_standard_path proxyW baseW moaEmptyW "p" "c" "s").2.2.1 rfl "std" rfl,
   (c10_empty_moa_success_runs_standard_path proxyW baseW moaEmptyW "p" "c" "s").2.2.2 rfl "std" rfl rfl⟩

/-- The annotated sentence packer computes the same chunks as the source's
sentence packer. -/
theorem sentencePackGoA_map (maxC : Nat) (mn : String) (para : Text) (ss : List Text)
    (chunksA : List PackedChunk) (cur : Text) (tok cmax : Nat) :
    (sentencePackGoA maxC mn para ss chunksA cur tok cmax).map PackedChunk.text =
      sentencePackGo maxC mn para ss (chunksA.map PackedChunk.text) cur tok := by
  induction ss generalizing chunksA cur tok cmax with
  | nil =>
      by_cases h : cur.length > 0 <;> simp [sentencePackGoA, sentencePackGo, h]
  | cons s rest ih =>
      by_cases h1 : (trimSpace s).isEmpty
      · simp [sentencePackGoA, sentencePackGo, h1, ih]
      · by_cases hf : (tok > 0 &&
            tok + estimateTokensModel (reattachPunctuation para (trimSpace s)) mn > maxC)
        · simp [sentencePackGoA, sentencePackGo, h1, hf, ih]
        · simp [sentencePackGoA, sentencePackGo, h1, hf, ih]

/-- The annotated token-count splitter computes the same chunks as the
source's splitter. -/
theorem splitByTokenCountGoA_map (cm : ContextManager) (paras : List Text)
    (chunksA : List PackedChunk) (cur : Text) (tok cmax : Nat) :
    (splitByTokenCountGoA cm paras chunksA cur tok cmax).map PackedChunk.text =
      splitByTokenCountGo cm paras (chunksA.map PackedChunk.text) cur tok := by
  induction paras generalizing chunksA cur tok cmax with
  | nil =>
      by_cases h : cur.length > 0 <;> simp [splitByTokenCountGoA, splitByTokenCountGo, h]
  | cons p rest ih =>
      by_cases h1 : (trimSpace p).isEmpty
      · simp [splitByTokenCountGoA, splitByTokenCountGo, h1, ih]
      · by_cases h2 : estimateTokensModel (trimSpace p) cm.modelName > cm.maxChunkSize
        · by_cases h3 : cur.length > 0 <;>
            simp [splitByTokenCountGoA, splitByTokenCountGo, h1, h2, h3, ih,
              sentencePackGoA_map]
        · by_cases h4 : tok + estimateTokensModel (trimSpace p) cm.modelName > cm.maxChunkSize
          · simp [splitByTokenCountGoA, splitByTokenCountGo, h1, h2, h4, ih]
          · simp [splitByTokenCountGoA, splitByTokenCountGo, h1, h2, h4, ih]

/-- Invariant of the sentence packing loop: every flushed chunk either has
its tracked token sum within the limit or contains a single sentence whose
own estimate exceeds the limit. -/
theorem sentencePackGoA_tracked (maxC : Nat) (mn : String) (para : Text) (ss : List Text)
    (chunksA : List PackedChunk) (cur : Text) (tok cmax : Nat)
    (hchunks : ∀ e ∈ chunksA, e.packedTokens ≤ maxC ∨ maxC < e.maxComponentTokens)
    (hcur : tok ≤ maxC ∨ maxC < cmax) :
    ∀ e ∈ sentencePackGoA maxC mn para ss chunksA cur tok cmax,
      e.packedTokens ≤ maxC ∨ maxC < e.maxComponentTokens := by
  induction ss generalizing chunksA cur tok cmax with
  | nil =>
      intro e he
      by_cases h : cur.length > 0 <;> simp [sentencePackGoA, h] at he
      · rcases he with he | he
        · exact hchunks e he
        · subst he; exact hcur
      · exact hchunks e he
  | cons s rest ih =>
      by_cases h1 : (trimSpace s).isEmpty
      · intro e he
        rw [sentencePackGoA] at he
        simp only [h1, if_true] at he
        exact ih chunksA cur tok cmax hchunks hcur e he
      · set st := estimateTokensModel (reattachPunctuation para (trimSpace s)) mn with hst
        by_cases hf : (tok > 0 && tok + st > maxC)
        · intro e he
          rw [sentencePackGoA] at he
          simp only [h1, hf, if_false, if_true, Bool.false_eq_true, ← hst] at he
          refine ih _ _ _ _ ?_ ?_ e he
          · intro e' he'
            rcases List.mem_append.1 he' with h' | h'
            · exact hchunks e' h'
            · simp at h'
              subst h'
              exact hcur
          · rcases le_or_lt st maxC with h' | h'
            · exact Or.inl (by simpa using h')
            · exact Or.inr (by simpa using h')
        · intro e he
          rw [sentencePackGoA] at he
          simp only [h1, hf, if_false, Bool.false_eq_true, ← hst] at he
          refine ih _ _ _ _ hchunks ?_ e he
          have hf' : ¬ (tok > 0 ∧ tok + st > maxC) := by
            simpa [Nat.lt_iff_add_one_le] using hf
          rcases Nat.eq_zero_or_pos tok with h0 | h0
          · subst h0
            rcases le_or_lt st maxC with h' | h'
            · exact Or.inl (by simpa using h')
            · exact Or.inr (lt_of_lt_of_le h' (by simp [Nat.le_max_right]))
          · have : tok + st ≤ maxC := by
              rcases Nat.lt_or_ge maxC (tok + st) with h' | h'
              · exact absurd ⟨h0, h'⟩ hf'
              · exact h'
            exact Or.inl this

/-- Invariant of the paragraph packing loop, extending
`sentencePackGoA_tracked`. -/
theorem splitByTokenCountGoA_tracked (cm : ContextManager) (paras : List Text)
    (chunksA : List PackedChunk) (cur : Text) (tok cmax : Nat)
    (hchunks : ∀ e ∈ chunksA,
      e.packedTokens ≤ cm.maxChunkSize ∨ cm.maxChunkSize < e.maxComponentTokens)
    (hcur : tok ≤ cm.maxChunkSize ∨ cm.maxChunkSize < cmax) :
    ∀ e ∈ splitByTokenCountGoA cm paras chunksA cur tok cmax,
      e.packedTokens ≤ cm.maxChunkSize ∨ cm.maxChunkSize < e.maxComponentTokens := by
  induction paras generalizing chunksA cur tok cmax with
  | nil =>
      intro e he
      by_cases h : cur.length > 0 <;> simp [splitByTokenCountGoA, h] at he
      · rcases he with he | he
        · exact hchunks e he
        · subst he; exact hcur
      · exact hchunks e he
  | cons p rest ih =>
      by_cases h1 : (trimSpace p).isEmpty
      · intro e he
        rw [splitByTokenCountGoA] at he
        simp only [h1, if_true] at he
        exact ih chunksA cur tok cmax hchunks hcur e he
      · set pt := estimateTokensModel (trimSpace p) cm.modelName with hpt
        by_cases h2 : pt > cm.maxChunkSize
        · intro e he
          rw [splitByTokenCountGoA] at he
          simp only [h1, ← hpt, h2, if_true, if_false, Bool.false_eq_true] at he
          refine ih _ _ _ _ ?_ (Or.inl (Nat.zero_le _)) e he
          intro e' he'
          rcases List.mem_append.1 he' with h' | h'
          · by_cases h3 : cur.length > 0
            · simp only [h3, if_true] at h'
              rcases List.mem_append.1 h' with h'' | h''
              · exact hchunks e' h''
              · simp at h''
                subst h''
                exact hcur
            · simp only [h3, if_false] at h'
              exact hchunks e' h'
          · exact sentencePackGoA_tracked cm.maxChunkSize cm.modelName (trimSpace p)
              (sentenceSplit (trimSpace p)) [] [] 0 0 (by simp)
              (Or.inl (Nat.zero_le _)) e' h'
        · by_cases h4 : tok + pt > cm.maxChunkSize
          · intro e he
            rw [splitByTokenCountGoA] at he
            simp only [h1, ← hpt, h2, h4, if_true, if_false, Bool.false_eq_true] at he
            refine ih _ _ _ _ ?_ (Or.inl (Nat.le_of_not_lt h2)) e he
            intro e' he'
            rcases List.mem_append.1 he' with h' | h'
            · exact hchunks e' h'
            · simp at h'
              subst h'
              exact hcur
          · intro e he
            rw [splitByTokenCountGoA] at he
            simp only [h1, ← hpt, h2, h4, if_true, if_false, Bool.false_eq_true] at he
            exact ih _ _ _ _ hchunks (Or.inl (Nat.le_of_not_lt h4)) e he

/-- C4 (amended): every chunk produced with strategy ByTokenCount either has
the sum of its packed components' token estimates at most `maxChunkSize`, or
is built around a single sentence whose own estimate already exceeds
`maxChunkSize`; the annotated splitter is faithful (same chunk texts).  The
character-length estimate of the chunk text itself can exceed `maxChunkSize`
(see the counterexample): separators and indivisible sentences are not
bounded by the greedy check. -/
theorem c4_tokencount_tracked_bound (cm : ContextManager) (text : Text) :
    (splitByTokenCountAnnotated cm text).map PackedChunk.text = splitByTokenCount cm text ∧
    ∀ e ∈ splitByTokenCountAnnotated cm text,
      e.packedTokens ≤ cm.maxChunkSize ∨ cm.maxChunkSize < e.maxComponentTokens := by
  constructor
  · rw [splitByTokenCountAnnotated, splitByTokenCount, splitByTokenCountGoA_map]
    rfl
  · exact splitByTokenCountGoA_tracked cm (splitOnDoubleNewline text) [] [] 0 0
      (by simp) (Or.inl (Nat.zero_le _))

/-- C4 counterexample: a single 30-character sentence with `maxChunkSize` 5
becomes one chunk whose estimated token count is 10, exceeding
`maxChunkSize`. -/
theorem c4_counterexample :
    splitByTokenCount cmToken5 text30 = [text30] ∧
    cmToken5.maxChunkSize < estimateTokensModel text30 cmToken5.modelName := by
  decide

/-- C4 witness: the amended theorem applied to the concrete oversized-sentence
input. -/
theorem c4_witness :
    (⟨text30, 10, 10⟩ : PackedChunk) ∈ splitByTokenCountAnnotated cmToken5 text30 ∧
    ((10 : Nat) ≤ cmToken5.maxChunkSize ∨ cmToken5.maxChunkSize < 10) :=
  ⟨by decide, (c4_tokencount_tracked_bound cmToken5 text30).2 ⟨text30, 10, 10⟩ (by decide)⟩


/-- The prompt accumulator only ever grows: the prompts returned by the
sequential loop extend the prompts passed in. -/
theorem processSequentiallyGo_prompts_prefix (cm : ContextManager) (gen : TextGenerator)
    (instructionPerChunk : Text) (rest : List Text) :
    ∀ (i : Nat) (results : List Text) (prev : Text) (prompts : List Text),
      ∃ tail, (processSequentiallyGo cm gen instructionPerChunk rest i results prev
        prompts).2.2 = prompts ++ tail := by
  induction rest with
  | nil =>
      intro i results prev prompts
      exact ⟨[], by simp [processSequentiallyGo]⟩
  | cons chunk rest ih =>
      intro i results prev prompts
      cases hg : gen (if i = 0 then seqFirstPrompt instructionPerChunk chunk
        else seqLaterPrompt instructionPerChunk prev chunk) with
      | error e =>
          refine ⟨[if i = 0 then seqFirstPrompt instructionPerChunk chunk
            else seqLaterPrompt instructionPerChunk prev chunk], ?_⟩
          rw [processSequentiallyGo]
          simp [hg]
      | ok result =>
          rcases ih (i + 1) (results ++ [result]) (summarizeForContext cm result)
            (prompts ++ [if i = 0 then seqFirstPrompt instructionPerChunk chunk
              else seqLaterPrompt instructionPerChunk prev chunk]) with ⟨tail, htail⟩
          refine ⟨(if i = 0 then seqFirstPrompt instructionPerChunk chunk
            else seqLaterPrompt instructionPerChunk prev chunk) :: tail, ?_⟩
          rw [processSequentiallyGo]
          simp only [hg]
          rw [htail]
          simp

/-- Characterisation of the sequential chunk loop from any starting state.
With no error, every chunk contributes one prompt and one result.  With an
error, the loop stops at the failing chunk `j`: one prompt was issued per
processed chunk; the failing prompt is the one built from chunk `j` and the
generator fails on it with exactly the wrapped error that is surfaced; every
earlier returned segment is the generator's successful output on the prompt
built from that chunk; and the returned text joins those segments followed by
the placeholder. -/
theorem processSequentiallyGo_run (cm : ContextManager) (gen : TextGenerator)
    (instructionPerChunk : Text) (rest : List Text) :
    ∀ (i : Nat) (results : List Text) (prev : Text) (prompts : List Text),
      ((processSequentiallyGo cm gen instructionPerChunk rest i results prev prompts).2.1 =
          none →
        (processSequentiallyGo cm gen instructionPerChunk rest i results prev
            prompts).2.2.length = prompts.length + rest.length ∧
        ∃ rs, rs.length = rest.length ∧
          (processSequentiallyGo cm gen instructionPerChunk rest i results prev prompts).1 =
            List.intercalate chunkJoinSeparator (results ++ rs)) ∧
      (∀ er,
        (processSequentiallyGo cm gen instructionPerChunk rest i results prev prompts).2.1 =
            some er →
        ∃ j e rs,
          j < rest.length ∧
          (processSequentiallyGo cm gen instructionPerChunk rest i results prev
              prompts).2.2.length = prompts.length + j + 1 ∧
          er = chunkErrorMessage (i + j) e ∧
          (∃ pj cj,
            (processSequentiallyGo cm gen instructionPerChunk rest i results prev
                prompts).2.2[prompts.length + j]? = some pj ∧
            rest[j]? = some cj ∧
            (pj = seqFirstPrompt instructionPerChunk cj ∨
              ∃ s, pj = seqLaterPrompt instructionPerChunk s cj) ∧
            gen pj = .error e) ∧
          rs.length = j ∧
          (∀ mth, mth < j → ∃ pm cm2 rm,
            (processSequentiallyGo cm gen instructionPerChunk rest i results prev
                prompts).2.2[prompts.length + mth]? = some pm ∧
            rest[mth]? = some cm2 ∧
            (pm = seqFirstPrompt instructionPerChunk cm2 ∨
              ∃ s, pm = seqLaterPrompt instructionPerChunk s cm2) ∧
            gen pm = .ok rm ∧ rs[mth]? = some rm) ∧
          (processSequentiallyGo cm gen instructionPerChunk rest i results prev prompts).1 =
            List.intercalate chunkJoinSeparator
              (results ++ rs ++ [errorPlaceholder (i + j)])) := by
  induction rest with
  | nil =>
      intro i results prev prompts
      refine ⟨fun _ => ⟨by simp [processSequentiallyGo], ⟨[], by simp, by
        simp [processSequentiallyGo]⟩⟩, fun er her => ?_⟩
      simp [processSequentiallyGo] at her
  | cons chunk rest ih =>
      intro i results prev prompts
      cases hg : gen (if i = 0 then seqFirstPrompt instructionPerChunk chunk
        else seqLaterPrompt instructionPerChunk prev chunk) with
      | error e =>
          constructor
          · intro hnone
            rw [processSequentiallyGo] at hnone
            simp only [hg] at hnone
            simp at hnone
          · intro er her
            have her' : er = chunkErrorMessage i e := by
              rw [processSequentiallyGo] at her
              simp only [hg] at her
              simpa using her.symm
            refine ⟨0, e, [], by simp, ?_, by simpa using her', ?_, rfl, by omega, ?_⟩
            · rw [processSequentiallyGo]
              simp [hg]
            · refine ⟨if i = 0 then seqFirstPrompt instructionPerChunk chunk
                else seqLaterPrompt instructionPerChunk prev chunk, chunk, ?_, by simp, ?_, hg⟩
              · rw [processSequentiallyGo]
                simp only [hg, Nat.add_zero]
                exact List.getElem?_concat_length prompts _
              · by_cases hi : i = 0 <;> simp [hi]
                exact Or.inr ⟨prev, rfl⟩
            · rw [processSequentiallyGo]
              simp [hg]
      | ok result =>
          have ih' := ih (i + 1) (results ++ [result]) (summarizeForContext cm result)
            (prompts ++ [if i = 0 then seqFirstPrompt instructionPerChunk chunk
              else seqLaterPrompt instructionPerChunk prev chunk])
          constructor
          · intro hnone
            rw [processSequentiallyGo] at hnone ⊢
            simp only [hg] at hnone ⊢
            rcases ih'.1 hnone with ⟨hlen, rs, hrs, heq⟩
            refine ⟨by simpa [Nat.add_assoc, Nat.add_comm 1 rest.length] using hlen,
              result :: rs, by simp [hrs], ?_⟩
            rw [heq]
            congr 1
            simp
          · intro er her
            rw [processSequentiallyGo] at her ⊢
            simp only [hg] at her ⊢
            rcases ih'.2 er her with ⟨j, e, rs, hj, hlen, her', hpj, hrslen, hall, heq⟩
            rcases hpj with ⟨pj, cj, hpj1, hpj2, hpj3, hpj4⟩
            rcases processSequentiallyGo_prompts_prefix cm gen instructionPerChunk rest
              (i + 1) (results ++ [result]) (summarizeForContext cm result)
              (prompts ++ [if i = 0 then seqFirstPrompt instructionPerChunk chunk
                else seqLaterPrompt instructionPerChunk prev chunk]) with ⟨tail, htail⟩
            refine ⟨j + 1, e, result :: rs, by simp; omega, ?_, ?_, ?_, by simp [hrslen], ?_, ?_⟩
            · rw [hlen]
              simp
              omega
            · rw [her']
              congr 1
              omega
            · refine ⟨pj, cj, ?_, by simpa using hpj2, hpj3, hpj4⟩
              rw [show prompts.length + (j + 1) = (prompts ++
                [if i = 0 then seqFirstPrompt instructionPerChunk chunk
                  else seqLaterPrompt instructionPerChunk prev chunk]).length + j by simp; omega]
              exact hpj1
            · intro mth hmth
              cases mth with
              | zero =>
                  refine ⟨if i = 0 then seqFirstPrompt instructionPerChunk chunk
                    else seqLaterPrompt instructionPerChunk prev chunk, chunk, result, ?_,
                    by simp, ?_, hg, by simp⟩
                  · rw [htail, Nat.add_zero, List.getElem?_append, if_pos (by simp)]
                    exact List.getElem?_concat_length prompts _
                  · by_cases hi : i = 0 <;> simp [hi]
                    exact Or.inr ⟨prev, rfl⟩
              | succ m' =>
                  rcases hall m' (by omega) with ⟨pm, cm2, rm, h1, h2, h3, h4, h5⟩
                  refine ⟨pm, cm2, rm, ?_, by simpa using h2, h3, h4, by simpa using h5⟩
                  rw [show prompts.length + (m' + 1) = (prompts ++
                    [if i = 0 then seqFirstPrompt instructionPerChunk chunk
                      else seqLaterPrompt instructionPerChunk prev chunk]).length + m'
                    by simp; omega]
                  exact h1
            · rw [heq, show i + (j + 1) = i + 1 + j from by omega]
              simp

/-- C8: in sequential mode, if a chunk's generation errors, processing stops
at that chunk: when chunk `k` (0-based) fails, exactly `k + 1` prompts are
issued (no later chunk is processed); the prompt at position `k` is built
from chunk `k` and the generator fails on it with the error that is surfaced
(wrapped as the chunk error message for index `k`); the results obtained so
far are exactly the generator's outputs on the prompts built from chunks
`0..k-1`, and the returned text is their join followed by the error
placeholder. -/
theorem c8_sequential_fail_fast (cm : ContextManager) (gen : TextGenerator)
    (chunks : List Text) (instructionPerChunk : Text) :
    ((processSequentially cm gen chunks instructionPerChunk).2.1 = none →
      (processSequentially cm gen chunks instructionPerChunk).2.2.length = chunks.length) ∧
    (∀ er, (processSequentially cm gen chunks instructionPerChunk).2.1 = some er →
      ∃ k e rs,
        k < chunks.length ∧
        (processSequentially cm gen chunks instructionPerChunk).2.2.length = k + 1 ∧
        er = chunkErrorMessage k e ∧
        (∃ pk ck,
          (processSequentially cm gen chunks instructionPerChunk).2.2[k]? = some pk ∧
          chunks[k]? = some ck ∧
          (pk = seqFirstPrompt instructionPerChunk ck ∨
            ∃ s, pk = seqLaterPrompt instructionPerChunk s ck) ∧
          gen pk = .error e) ∧
        rs.length = k ∧
        (∀ mth, mth < k → ∃ pm cm2 rm,
          (processSequentially cm gen chunks instructionPerChunk).2.2[mth]? = some pm ∧
          chunks[mth]? = some cm2 ∧
          (pm = seqFirstPrompt instructionPerChunk cm2 ∨
            ∃ s, pm = seqLaterPrompt instructionPerChunk s cm2) ∧
          gen pm = .ok rm ∧ rs[mth]? = some rm) ∧
        (processSequentially cm gen chunks instructionPerChunk).1 =
          List.intercalate chunkJoinSeparator (rs ++ [errorPlaceholder k])) := by
  have h := processSequentiallyGo_run cm gen instructionPerChunk chunks 0 [] [] []
  constructor
  · intro hnone
    simpa [processSequentially] using (h.1 hnone).1
  · intro er her
    rcases h.2 er her with ⟨j, e, rs, hj, hlen, her', ⟨pj, cj, hp1, hp2, hp3, hp4⟩,
      hrslen, hall, heq⟩
    refine ⟨j, e, rs, hj, by simpa [processSequentially] using hlen,
      by simpa using her', ⟨pj, cj, by simpa [processSequentially] using hp1, hp2, hp3, hp4⟩,
      hrslen, ?_, by simpa [processSequentially] using heq⟩
    intro mth hmth
    rcases hall mth hmth with ⟨pm, cm2, rm, h1, h2, h3, h4, h5⟩
    exact ⟨pm, cm2, rm, by simpa [processSequentially] using h1, h2, h3, h4, h5⟩

/-- C8 witness: three paragraph chunks with the generator failing on the
second; the theorem is applied at that concrete run. -/
theorem c8_witness :
    ∃ k e rs, k < (["A".data, "B".data, "C".data] : List Text).length ∧
      (processSequentially (NewContextManager .chunkByParagraph) genW
        ["A".data, "B".data, "C".data] "task".data).2.2.length = k + 1 ∧
      chunkErrorMessage 1 "boom" = chunkErrorMessage k e ∧
      (∃ pk ck,
        (processSequentially (NewContextManager .chunkByParagraph) genW
          ["A".data, "B".data, "C".data] "task".data).2.2[k]? = some pk ∧
        (["A".data, "B".data, "C".data] : List Text)[k]? = some ck ∧
        (pk = seqFirstPrompt "task".data ck ∨
          ∃ s, pk = seqLaterPrompt "task".data s ck) ∧
        genW pk = .error e) ∧
      rs.length = k ∧
      (∀ mth, mth < k → ∃ pm cm2 rm,
        (processSequentially (NewContextManager .chunkByParagraph) genW
          ["A".data, "B".data, "C".data] "task".data).2.2[mth]? = some pm ∧
        (["A".data, "B".data, "C".data] : List Text)[mth]? = some cm2 ∧
        (pm = seqFirstPrompt "task".data cm2 ∨
          ∃ s, pm = seqLaterPrompt "task".data s cm2) ∧
        genW pm = .ok rm ∧ rs[mth]? = some rm) ∧
      (processSequentially (NewContextManager .chunkByParagraph) genW
        ["A".data, "B".data, "C".data] "task".data).1 =
        List.intercalate chunkJoinSeparator (rs ++ [errorPlaceholder k]) :=
  (c8_sequential_fail_fast (NewContextManager .chunkByParagraph) genW
    ["A".data, "B".data, "C".data] "task".data).2 (chunkErrorMessage 1 "boom") (by decide)

/-- The parallel fold preserves the length of the results array. -/
theorem parFold_length (gen : TextGenerator) (instr : Text) (chunks : List Text)
    (order : List Nat) :
    ∀ st : List Text × Option GoErr,
      (order.foldl (parStep gen instr chunks) st).1.length = st.1.length := by
  induction order with
  | nil => intro st; rfl
  | cons a rest ih =>
      intro st
      rw [List.foldl_cons, ih]
      rcases h : chunks[a]? with _ | c <;> simp [parStep, h]
      cases hg : gen (parallelChunkPrompt instr c) <;> simp [hg]

/-- Slot contents after any completion order: every in-range index that has
completed holds its chunk's outcome; other slots are untouched. -/
theorem parFold_getElem (gen : TextGenerator) (instr : Text) (chunks : List Text)
    (order : List Nat) :
    ∀ (st : List Text × Option GoErr), st.1.length = chunks.length →
      ∀ j, (order.foldl (parStep gen instr chunks) st).1[j]? =
        if j ∈ order ∧ j < chunks.length then some (outcomeAt gen instr chunks j)
        else st.1[j]? := by
  induction order with
  | nil => intro st hst j; simp
  | cons a rest ih =>
      intro st hst j
      rw [List.foldl_cons]
      have hlen : (parStep gen instr chunks st a).1.length = chunks.length := by
        rcases h : chunks[a]? with _ | c <;> simp [parStep, h, hst]
        cases hg : gen (parallelChunkPrompt instr c) <;> simp [hg, hst]
      rw [ih (parStep gen instr chunks st a) hlen j]
      by_cases hjr : j ∈ rest ∧ j < chunks.length
      · simp [hjr, List.mem_cons.2 (Or.inr hjr.1), hjr.2]
      · simp only [hjr, if_false]
        by_cases hja : j = a
        · subst hja
          by_cases hjn : j < chunks.length
          · rcases hc : chunks[j]? with _ | c
            · rw [List.getElem?_eq_none_iff] at hc
              omega
            have : (parStep gen instr chunks st j).1[j]? = some (outcomeAt gen instr chunks j) := by
              rcases hg : gen (parallelChunkPrompt instr c) with r | e <;>
                simp [parStep, hc, hg, outcomeAt, chunkOutcome,
                  List.getElem?_set_self (hst ▸ hjn)]
            rw [this]
            simp [hjn]
          · have hc : chunks[j]? = none := by
              simp [List.getElem?_eq_none_iff]
              omega
            simp [parStep, hc, hjn]
        · have : (parStep gen instr chunks st a).1[j]? = st.1[j]? := by
            rcases h : chunks[a]? with _ | c
            · simp [parStep, h]
            · cases hg : gen (parallelChunkPrompt instr c) <;>
                simp [parStep, h, hg, List.getElem?_set_ne (Ne.symm hja)]

          rw [this]
          have hno : ¬(j ∈ a :: rest ∧ j < chunks.length) := by
            intro hcon
            rcases List.mem_cons.1 hcon.1 with h' | h'
            · exact hja h'
            · exact hjr ⟨h', hcon.2⟩
          rw [if_neg hno]

/-- After a completion order that is a permutation of all chunk indices, the
results array is exactly the outcomes in chunk-index order. -/
theorem parFold_slots (gen : TextGenerator) (instr : Text) (chunks : List Text)
    (order : List Nat) (h : order.Perm (List.range chunks.length)) :
    (order.foldl (parStep gen instr chunks) (List.replicate chunks.length [], none)).1 =
      (List.range chunks.length).map (outcomeAt gen instr chunks) := by
  apply List.ext_getElem?
  intro j
  rw [parFold_getElem gen instr chunks order (List.replicate chunks.length [], none)
    (by simp) j]
  by_cases hj : j < chunks.length
  · have hmem : j ∈ order := (h.mem_iff).2 (List.mem_range.2 hj)
    simp [hmem, hj, List.getElem?_map, List.getElem?_range hj]
  · have : ¬ (j ∈ order ∧ j < chunks.length) := fun hc => hj hc.2
    simp only [this, if_false]
    rw [List.getElem?_eq_none_iff.2 (by simpa using hj),
      List.getElem?_eq_none_iff.2 (by simpa using hj)]

/-- The text returned by the parallel processor, for any completion order
that schedules every chunk index once, is the index-ordered join of the
per-chunk outcomes. -/
theorem processInParallel_text_eq (gen : TextGenerator) (instructionPerChunk : Text)
    (chunks : List Text) (order : List Nat)
    (h : order.Perm (List.range chunks.length)) :
    (processInParallel gen chunks instructionPerChunk order).1 =
      List.intercalate chunkJoinSeparator
        ((List.range chunks.length).map (outcomeAt gen instructionPerChunk chunks)) := by
  show (List.intercalate chunkJoinSeparator _) = _
  rw [parFold_slots gen instructionPerChunk chunks order h]

/-- C9: in parallel mode the reassembled output is the join, in chunk-index
order and with the fixed separator, of the per-chunk outcomes — for every
goroutine completion order that schedules each chunk exactly once, i.e. the
output does not depend on the completion order. -/
theorem c9_parallel_order_independent (gen : TextGenerator) (instructionPerChunk : Text)
    (chunks : List Text) (order : List Nat)
    (h : order.Perm (List.range chunks.length)) :
    (processInParallel gen chunks instructionPerChunk order).1 =
      List.intercalate chunkJoinSeparator
        ((List.range chunks.length).map (outcomeAt gen instructionPerChunk chunks)) :=
  processInParallel_text_eq gen instructionPerChunk chunks order h

/-- Once the shared last-error slot is non-nil it stays non-nil. -/
theorem parFold_err_absorb (gen : TextGenerator) (instr : Text) (chunks : List Text)
    (order : List Nat) :
    ∀ st : List Text × Option GoErr, st.2 ≠ none →
      (order.foldl (parStep gen instr chunks) st).2 ≠ none := by
  induction order with
  | nil => intro st h; exact h
  | cons a rest ih =>
      intro st h
      rw [List.foldl_cons]
      refine ih _ ?_
      rcases hc : chunks[a]? with _ | c
      · simpa [parStep, hc] using h
      · cases hg : gen (parallelChunkPrompt instr c) <;> simp [parStep, hc, hg] <;> exact h

/-- The last-error slot ends `nil` exactly when it started `nil` and every
scheduled chunk generated successfully. -/
theorem parFold_err_none_iff (gen : TextGenerator) (instr : Text) (chunks : List Text)
    (order : List Nat) :
    ∀ st : List Text × Option GoErr,
      ((order.foldl (parStep gen instr chunks) st).2 = none ↔
        st.2 = none ∧ ∀ i ∈ order, ∀ c, chunks[i]? = some c →
          ∃ r, gen (parallelChunkPrompt instr c) = .ok r) := by
  induction order with
  | nil => intro st; simp
  | cons a rest ih =>
      intro st
      rw [List.foldl_cons, ih]
      rcases hc : chunks[a]? with _ | c
      · constructor
        · rintro ⟨h1, h2⟩
          refine ⟨by simpa [parStep, hc] using h1, ?_⟩
          intro i hi c' hc'
          rcases List.mem_cons.1 hi with h' | h'
          · subst h'
            rw [hc] at hc'
            cases hc'
          · exact h2 i h' c' hc'
        · rintro ⟨h1, h2⟩
          exact ⟨by simpa [parStep, hc] using h1, fun i hi => h2 i (List.mem_cons.2 (Or.inr hi))⟩
      · rcases hg : gen (parallelChunkPrompt instr c) with e | r
        · constructor
          · rintro ⟨h1, h2⟩
            exact absurd h1 (by simp [parStep, hc, hg])
          · rintro ⟨h1, h2⟩
            rcases h2 a (List.mem_cons_self a rest) c hc with ⟨r, hr⟩
            rw [hr] at hg
            cases hg
        · constructor
          · rintro ⟨h1, h2⟩
            refine ⟨by simpa [parStep, hc, hg] using h1, ?_⟩
            intro i hi c' hc'
            rcases List.mem_cons.1 hi with h' | h'
            · subst h'
              rw [hc] at hc'
              cases hc'
              exact ⟨r, hg⟩
            · exact h2 i h' c' hc'
          · rintro ⟨h1, h2⟩
            exact ⟨by simpa [parStep, hc, hg] using h1,
              fun i hi => h2 i (List.mem_cons.2 (Or.inr hi))⟩

/-- A join of parts one of which is non-empty is non-empty. -/
theorem intercalate_ne_nil_of_mem (sep : Text) (parts : List Text) (x : Text)
    (hx : x ∈ parts) (hne : x ≠ []) : List.intercalate sep parts ≠ [] := by
  induction parts with
  | nil => cases hx
  | cons p ps ih =>
      cases ps with
      | nil =>
          have : x = p := by simpa using hx
          subst this
          simpa [List.intercalate] using hne
      | cons q qs =>
          have hcc : List.intercalate sep (p :: q :: qs) =
              p ++ sep ++ List.intercalate sep (q :: qs) := by
            simp [List.intercalate, List.intersperse]
          rw [hcc]
          rcases List.mem_cons.1 hx with h' | h'
          · subst h'
            simp [hne]
          · intro hcon
            rcases List.append_eq_nil.1 hcon with ⟨h1, h2⟩
            exact ih h' h2

/-- The error placeholder text is never empty. -/
theorem errorPlaceholder_ne_nil (i : Nat) : errorPlaceholder i ≠ [] := by
  intro hcon
  rw [errorPlaceholder, String.data_append, String.data_append] at hcon
  rcases List.append_eq_nil.1 hcon with ⟨h1, _⟩
  rcases List.append_eq_nil.1 h1 with ⟨h2, _⟩
  exact absurd h2 (by decide)

/-- C3 (amended): a response from the parallel processor carries no error
exactly when every chunk generated successfully; when an error is surfaced
the returned text is nonetheless non-empty (it contains the error
placeholder), so a non-empty text and an error can be returned together —
the original claim's "empty text with an error" alternative does not hold. -/
theorem c3_placeholder_text_with_error (gen : TextGenerator) (instructionPerChunk : Text)
    (chunks : List Text) (order : List Nat)
    (h : order.Perm (List.range chunks.length)) :
    ((processInParallel gen chunks instructionPerChunk order).2 = none ↔
      ∀ (i : Nat) (c : Text), chunks[i]? = some c →
        ∃ r, gen (parallelChunkPrompt instructionPerChunk c) = .ok r) ∧
    ((processInParallel gen chunks instructionPerChunk order).2 ≠ none →
      (processInParallel gen chunks instructionPerChunk order).1 ≠ []) := by
  have herr : (processInParallel gen chunks instructionPerChunk order).2 =
      (order.foldl (parStep gen instructionPerChunk chunks)
        (List.replicate chunks.length [], none)).2 := rfl
  have hiff : (processInParallel gen chunks instructionPerChunk order).2 = none ↔
      ∀ (i : Nat) (c : Text), chunks[i]? = some c →
        ∃ r, gen (parallelChunkPrompt instructionPerChunk c) = .ok r := by
    rw [herr, parFold_err_none_iff]
    constructor
    · rintro ⟨_, h2⟩ i c hc
      have hi : i < chunks.length := by
        rcases List.getElem?_eq_some_iff.1 hc with ⟨hlt, _⟩
        exact hlt
      exact h2 i ((h.mem_iff).2 (List.mem_range.2 hi)) c hc
    · intro hall
      exact ⟨rfl, fun i _ c hc => hall i c hc⟩
  refine ⟨hiff, ?_⟩
  intro hne
  have hex : ∃ (i : Nat) (c : Text), chunks[i]? = some c ∧
      ∀ r, gen (parallelChunkPrompt instructionPerChunk c) ≠ .ok r := by
    by_contra hcon
    push_neg at hcon
    exact hne (hiff.2 fun i c hc => hcon i c hc)
  rcases hex with ⟨i, c, hc, hfail⟩
  have hi : i < chunks.length := by
    rcases List.getElem?_eq_some_iff.1 hc with ⟨hlt, _⟩
    exact hlt
  rcases hg : gen (parallelChunkPrompt instructionPerChunk c) with e | r
  · rw [processInParallel_text_eq gen instructionPerChunk chunks order h]
    have hout : outcomeAt gen instructionPerChunk chunks i = errorPlaceholder i := by
      simp [outcomeAt, hc, chunkOutcome, hg]
    refine intercalate_ne_nil_of_mem _ _ (outcomeAt gen instructionPerChunk chunks i)
      (List.mem_map.2 ⟨i, List.mem_range.2 hi, rfl⟩) ?_
    rw [hout]
    exact errorPlaceholder_ne_nil i
  · exact absurd hg (hfail r)

/-- C9 witness: two chunks completing in reverse order still produce the
index-ordered join. -/
theorem c9_witness :
    (processInParallel genOkW ["A".data, "B".data] "inst".data [1, 0]).1 =
      List.intercalate chunkJoinSeparator
        ((List.range 2).map (outcomeAt genOkW "inst".data ["A".data, "B".data])) :=
  c9_parallel_order_independent genOkW "inst".data ["A".data, "B".data] [1, 0] (by decide)

/-- C3 counterexample: the original claim is false on the code — a response
can carry a non-empty text together with an error.  `ProcessLargePrompt` in
parallel mode over one failing chunk returns the placeholder text (non-empty)
and a non-nil error. -/
theorem c3_counterexample :
    (ProcessLargePrompt (NewContextManager .chunkByParagraph) genBadW
      "x".data "inst".data [0]).1 ≠ [] ∧
    (ProcessLargePrompt (NewContextManager .chunkByParagraph) genBadW
      "x".data "inst".data [0]).2 ≠ none := by
  decide

/-- C3 witness: a failing single-chunk run returns an error and a non-empty
placeholder text. -/
theorem c3_witness :
    (processInParallel genBadW ["A".data] "inst".data [0]).2 ≠ none ∧
    (processInParallel genBadW ["A".data] "inst".data [0]).1 ≠ [] :=
  ⟨by decide,
   (c3_placeholder_text_with_error genBadW "inst".data ["A".data] [0] (by decide)).2
     (by decide)⟩


end WIE
